import Mathlib

/-!
Verification of the maze-chase simulation core (entity movement, ghost AI,
A* pathfinding, collision rules) against its natural-language specification.

The embedding mirrors the Python sources:
* `src/src/utils.py`   — `Vector2D`, `Direction`, `AStar`
* `src/src/map.py`     — `Map` (here `GameMap`): wall lookup, validity, pellet removal
* `src/src/game_objects.py` — `Player`, `Ghost` and their update logic
* `src/main.py`        — the per-tick ghost-collision resolution of `Game.update`

Pixel coordinates, speeds and timers are modelled as exact rationals (`ℚ`);
the code's floating-point values (1.5, 2.125, 0.85, …) are all dyadic or
decimal, hence exactly representable.  Strict comparisons of Euclidean
distances (`math.sqrt`) are modelled by the equivalent comparisons of
squared distances, which avoids irrational numbers; `Vector2D.normalize`,
whose output genuinely contains square roots, is modelled over `ℝ` below.
Python's `int(...)` truncation and `//` floor division are modelled with
`Int.floor` / truncation on `ℚ`.
-/

/-- 2D vector with exact rational coordinates (pixel space), mirroring
`Vector2D` of `src/src/utils.py` for all gameplay arithmetic. -/
structure Vec where
  x : ℚ
  y : ℚ
deriving DecidableEq, Repr

/-- Vector addition (`Vector2D.__add__`). -/
def Vec.add (a b : Vec) : Vec := ⟨a.x + b.x, a.y + b.y⟩

/-- Squared Euclidean distance; `a.distance_to b < c` (for `0 ≤ c`) is modelled
as `distSq a b < c²` since squaring is monotone on nonnegative reals. -/
def distSq (a b : Vec) : ℚ :=
  (a.x - b.x) * (a.x - b.x) + (a.y - b.y) * (a.y - b.y)

/-- Manhattan distance (`Vector2D.manhattan_distance_to`). -/
def manhattanD (a b : Vec) : ℚ := |a.x - b.x| + |a.y - b.y|

/-- Movement directions (`Direction` enum of `src/src/utils.py`). -/
inductive Direction where
  | UP
  | DOWN
  | LEFT
  | RIGHT
  | NONE
deriving DecidableEq, Repr

/-- The unit-step vector of a direction (the enum's `value`). -/
def Direction.value : Direction → ℚ × ℚ
  | .UP => (0, -1)
  | .DOWN => (0, 1)
  | .LEFT => (-1, 0)
  | .RIGHT => (1, 0)
  | .NONE => (0, 0)

/-- Entity kinds distinguished by `Map.is_valid_position`'s `type` argument:
the strings `"player"`, `"ghost"`, and anything else (the `else` branch). -/
inductive EntityKind where
  | player
  | ghost
  | other
deriving DecidableEq, Repr

/-- The maze (`Map` of `src/src/map.py`): a grid of cell codes
(0 = empty, 1 = wall, 2 = pellet, 3 = power-up) and a pixel cell size. -/
structure GameMap where
  layout : List (List ℕ)
  cell_size : ℚ
deriving DecidableEq, Repr

/-- `Map._height`: number of rows (kept equal to `len(self._layout)`). -/
def GameMap.height (m : GameMap) : ℕ := m.layout.length

/-- `Map._width`: length of the first row (`len(self._layout[0])`). -/
def GameMap.width (m : GameMap) : ℕ := (m.layout.headD []).length

/-- Cell code at grid coordinates (row, col); out-of-range reads default
to 0 (the Python code always bound-checks before indexing). -/
def GameMap.cellCode (m : GameMap) (row col : ℕ) : ℕ :=
  (m.layout.getD row []).getD col 0

/-- `Map.is_wall`: converts pixel position to grid coordinates by floor
division; out of bounds counts as wall, else the cell code is compared to 1. -/
def GameMap.is_wall (m : GameMap) (position : Vec) : Bool :=
  let col : ℤ := ⌊position.x / m.cell_size⌋
  let row : ℤ := ⌊position.y / m.cell_size⌋
  if row < 0 ∨ (m.height : ℤ) ≤ row ∨ col < 0 ∨ (m.width : ℤ) ≤ col then
    true
  else
    m.cellCode row.toNat col.toNat == 1

/-- The per-kind clearance half-extent computed in `Map.is_valid_position`:
`object_size // 2.125` for the player, `object_size // 3` for ghosts and
for every other kind (2.125 = 17/8 exactly, also in binary floating point). -/
def clearance_half_size (object_size : ℤ) : EntityKind → ℚ
  | .player => ((⌊(object_size : ℚ) / (17 / 8)⌋ : ℤ) : ℚ)
  | .ghost => ((⌊(object_size : ℚ) / 3⌋ : ℤ) : ℚ)
  | .other => ((⌊(object_size : ℚ) / 3⌋ : ℤ) : ℚ)

/-- The four corners of the bounding box tested by `Map.is_valid_position`. -/
def boxCorners (position : Vec) (half_size : ℚ) : List Vec :=
  [⟨position.x - half_size, position.y - half_size⟩,
   ⟨position.x + half_size, position.y - half_size⟩,
   ⟨position.x - half_size, position.y + half_size⟩,
   ⟨position.x + half_size, position.y + half_size⟩]

/-- `Map.is_valid_position`: valid iff none of the 4 corners of the
clearance bounding box is a wall. -/
def GameMap.is_valid_position (m : GameMap) (position : Vec) (object_size : ℤ)
    (kind : EntityKind) : Bool :=
  (boxCorners position (clearance_half_size object_size kind)).all
    fun c => !(m.is_wall c)

/-- Overwrite one grid cell (the assignment `self._layout[row][col] = 0`). -/
def GameMap.setCell (m : GameMap) (row col : ℕ) (v : ℕ) : GameMap :=
  { m with layout := m.layout.set row ((m.layout.getD row []).set col v) }

/-- `Map.remove_pellet_at`: pixel position → grid cell; if the cell is a
pellet (2) or power-up (3) it becomes empty (0) and the call reports
success, otherwise the map is unchanged and the call reports failure. -/
def GameMap.remove_pellet_at (m : GameMap) (position : Vec) : Bool × GameMap :=
  if 0 ≤ ⌊position.y / m.cell_size⌋ ∧ ⌊position.y / m.cell_size⌋ < (m.height : ℤ) ∧
      0 ≤ ⌊position.x / m.cell_size⌋ ∧ ⌊position.x / m.cell_size⌋ < (m.width : ℤ) then
    if m.cellCode (⌊position.y / m.cell_size⌋).toNat (⌊position.x / m.cell_size⌋).toNat = 2 ∨
        m.cellCode (⌊position.y / m.cell_size⌋).toNat (⌊position.x / m.cell_size⌋).toNat = 3 then
      (true, m.setCell (⌊position.y / m.cell_size⌋).toNat (⌊position.x / m.cell_size⌋).toNat 0)
    else
      (false, m)
  else
    (false, m)

/-- `Map.count_pellets`: number of cells holding a pellet or power-up. -/
def GameMap.count_pellets (m : GameMap) : ℕ :=
  (m.layout.map fun row => (row.filter fun c => c = 2 ∨ c = 3).length).sum

section MapLemmas

theorem GameMap.height_setCell (m : GameMap) (r c v : ℕ) :
    (m.setCell r c v).height = m.height := by
  simp [GameMap.setCell, GameMap.height]

theorem GameMap.width_setCell (m : GameMap) (r c v : ℕ) :
    (m.setCell r c v).width = m.width := by
  unfold GameMap.setCell GameMap.width
  rcases m with ⟨layout, cs⟩
  cases layout with
  | nil => simp
  | cons a t =>
      cases r with
      | zero => simp [List.headD]
      | succ n => simp [List.headD]

theorem GameMap.cellCode_setCell_self (m : GameMap) (r c v : ℕ)
    (hr : r < m.layout.length) (hc : c < (m.layout.getD r []).length) :
    (m.setCell r c v).cellCode r c = v := by
  unfold GameMap.setCell GameMap.cellCode
  simp only [List.getD, List.get?_eq_getElem? ] at hc ⊢
  rw [List.getElem?_set_eq_of_lt _ hr]
  simp only [Option.getD_some]
  rw [List.getElem?_set_eq_of_lt _ hc]
  simp

end MapLemmas

/-- A 2×2 map whose cell (row 1, col 1) holds a pellet; cell size 16. -/
def mPellet : GameMap := ⟨[[1, 1], [1, 2]], 16⟩

/-- C2: a cell holding a pellet (2) or power-up (3) is emptied and reported
removed by the first `remove_pellet_at`, while a second call at the same
position reports failure and leaves the map unchanged. -/
theorem remove_pellet_at_idempotent (m : GameMap) (pos : Vec) (row col : ℤ)
    (hrow : row = ⌊pos.y / m.cell_size⌋) (hcol : col = ⌊pos.x / m.cell_size⌋)
    (h0r : 0 ≤ row) (hr : row < (m.height : ℤ))
    (h0c : 0 ≤ col) (hc : col < (m.width : ℤ))
    (hcell : m.cellCode row.toNat col.toNat = 2 ∨ m.cellCode row.toNat col.toNat = 3) :
    (m.remove_pellet_at pos).1 = true ∧
    (m.remove_pellet_at pos).2.cellCode row.toNat col.toNat = 0 ∧
    ((m.remove_pellet_at pos).2.remove_pellet_at pos).1 = false ∧
    ((m.remove_pellet_at pos).2.remove_pellet_at pos).2 = (m.remove_pellet_at pos).2 := by
  subst hrow hcol
  have hr' : (⌊pos.y / m.cell_size⌋).toNat < m.layout.length := by
    have h1 := hr
    simp only [GameMap.height] at h1
    omega
  have hc' : (⌊pos.x / m.cell_size⌋).toNat <
      (m.layout.getD (⌊pos.y / m.cell_size⌋).toNat []).length := by
    by_contra hlen
    push_neg at hlen
    simp only [GameMap.cellCode] at hcell
    rw [List.getD_eq_default _ _ hlen] at hcell
    omega
  have hfirst : m.remove_pellet_at pos =
      (true, m.setCell (⌊pos.y / m.cell_size⌋).toNat (⌊pos.x / m.cell_size⌋).toNat 0) := by
    unfold GameMap.remove_pellet_at
    rw [if_pos ⟨h0r, hr, h0c, hc⟩, if_pos hcell]
  have hzero : (m.setCell (⌊pos.y / m.cell_size⌋).toNat (⌊pos.x / m.cell_size⌋).toNat 0).cellCode
      (⌊pos.y / m.cell_size⌋).toNat (⌊pos.x / m.cell_size⌋).toNat = 0 :=
    GameMap.cellCode_setCell_self m _ _ 0 hr' hc'
  have hcs : (m.setCell (⌊pos.y / m.cell_size⌋).toNat (⌊pos.x / m.cell_size⌋).toNat 0).cell_size =
      m.cell_size := rfl
  have hsecond : (m.setCell (⌊pos.y / m.cell_size⌋).toNat (⌊pos.x / m.cell_size⌋).toNat
      0).remove_pellet_at pos =
      (false, m.setCell (⌊pos.y / m.cell_size⌋).toNat (⌊pos.x / m.cell_size⌋).toNat 0) := by
    unfold GameMap.remove_pellet_at
    simp only [hcs, GameMap.height_setCell, GameMap.width_setCell]
    rw [if_pos ⟨h0r, hr, h0c, hc⟩]
    rw [if_neg (by rw [hzero]; omega)]
  rw [hfirst]
  exact ⟨rfl, hzero, by rw [hsecond], by rw [hsecond]⟩

/-- C2 witness: concrete 2×2 map, pellet at grid cell (1,1), pixel position
(24, 24); the two calls behave as the claim states. -/
theorem remove_pellet_at_idempotent_witness :
    (mPellet.remove_pellet_at ⟨24, 24⟩).1 = true ∧
    (mPellet.remove_pellet_at ⟨24, 24⟩).2.cellCode 1 1 = 0 ∧
    ((mPellet.remove_pellet_at ⟨24, 24⟩).2.remove_pellet_at ⟨24, 24⟩).1 = false ∧
    ((mPellet.remove_pellet_at ⟨24, 24⟩).2.remove_pellet_at ⟨24, 24⟩).2 =
      (mPellet.remove_pellet_at ⟨24, 24⟩).2 := by
  have h := remove_pellet_at_idempotent mPellet ⟨24, 24⟩ 1 1
    (by norm_num [mPellet]) (by norm_num [mPellet])
    (by norm_num) (by norm_num [mPellet, GameMap.height])
    (by norm_num) (by norm_num [mPellet, GameMap.width, List.headD])
    (by left; decide)
  simpa using h

/-- C6 counterexample: at the game's object size 16, the "other" kind's
clearance half-extent equals the ghost's (both `16 // 3 = 5`), so it is not
strictly smaller as the claim requires. -/
theorem clearance_not_strictly_ordered :
    clearance_half_size 16 .ghost = 5 ∧ clearance_half_size 16 .other = 5 ∧
    ¬ clearance_half_size 16 .other < clearance_half_size 16 .ghost := by
  norm_num [clearance_half_size]

/-- C6 (amended): at object size 16 the player's half-extent (7) is strictly
larger (tighter clearance) than the ghost's (5), and every other kind uses
the same half-extent as the ghost; a position is valid iff all 4 corners of
the clearance bounding box are non-wall. -/
theorem is_valid_position_clearance_corners :
    clearance_half_size 16 .player = 7 ∧
    clearance_half_size 16 .ghost = 5 ∧
    clearance_half_size 16 .other = clearance_half_size 16 .ghost ∧
    clearance_half_size 16 .ghost < clearance_half_size 16 .player ∧
    ∀ (m : GameMap) (p : Vec) (os : ℤ) (k : EntityKind),
      m.is_valid_position p os k = true ↔
        (m.is_wall ⟨p.x - clearance_half_size os k, p.y - clearance_half_size os k⟩ = false ∧
         m.is_wall ⟨p.x + clearance_half_size os k, p.y - clearance_half_size os k⟩ = false ∧
         m.is_wall ⟨p.x - clearance_half_size os k, p.y + clearance_half_size os k⟩ = false ∧
         m.is_wall ⟨p.x + clearance_half_size os k, p.y + clearance_half_size os k⟩ = false) := by
  refine ⟨by norm_num [clearance_half_size], by norm_num [clearance_half_size],
    by norm_num [clearance_half_size], by norm_num [clearance_half_size], ?_⟩
  intro m p os k
  simp [GameMap.is_valid_position, boxCorners]

/-- The pixel position reached by one step: `position + direction_vector * speed`
(the expression used by `MovableObject.can_move` and `MovableObject.move`). -/
def nextPos (position : Vec) (direction : Direction) (speed : ℚ) : Vec :=
  ⟨position.x + direction.value.1 * speed, position.y + direction.value.2 * speed⟩

/-- `MovableObject.can_move`: `NONE` never moves; otherwise the next position
must be valid for the entity's kind at the base sprite size (16). -/
def canMoveFrom (position : Vec) (speed : ℚ) (direction : Direction)
    (game_map : GameMap) (kind : EntityKind) : Bool :=
  if direction = .NONE then false
  else game_map.is_valid_position (nextPos position direction speed) 16 kind

/-- Python's `int(...)` truncation toward zero on an exact rational. -/
def pyInt (q : ℚ) : ℤ := if 0 ≤ q then ⌊q⌋ else -⌊-q⌋

/-- The `Player` of `src/src/game_objects.py`: kinematic state plus lives,
score and the power-up flag/timer (cosmetic animation counter included). -/
structure Player where
  position : Vec
  direction : Direction
  next_direction : Direction
  speed : ℚ
  lives : ℤ
  score : ℤ
  power_up_active : Bool
  power_up_timer : ℚ
  animation_frame : ℕ
deriving DecidableEq, Repr

/-- `Player.can_move`: movement test with the `"player"` clearance kind. -/
def Player.can_move (p : Player) (direction : Direction) (game_map : GameMap) : Bool :=
  canMoveFrom p.position p.speed direction game_map .player

/-- `MovableObject.move` (no argument): advance by `direction_vector * speed`
unless the committed direction is `NONE`. -/
def Player.move (p : Player) : Player :=
  if p.direction ≠ .NONE then { p with position := nextPos p.position p.direction p.speed }
  else p

/-- The power-up timer bookkeeping at the top of `Player.update`. -/
def Player.power_up_phase (delta_time : ℚ) (p : Player) : Player :=
  if p.power_up_active then
    if p.power_up_timer - delta_time * 1000 ≤ 0 then
      { p with power_up_active := false, power_up_timer := 0 }
    else
      { p with power_up_timer := p.power_up_timer - delta_time * 1000 }
  else p

/-- First movement phase of `Player.update`: prefer the queued (requested)
direction when unobstructed; else if the committed direction is obstructed
too, commit to `NONE`. -/
def Player.resolve_turn (game_map : GameMap) (p : Player) : Player :=
  if p.next_direction ≠ p.direction then
    if p.can_move p.next_direction game_map then { p with direction := p.next_direction }
    else if ¬ p.can_move p.direction game_map then { p with direction := .NONE }
    else p
  else p

/-- Second movement phase of `Player.update`: advance along the committed
direction when unobstructed; else retry the requested direction; else stop. -/
def Player.move_phase (game_map : GameMap) (p : Player) : Player :=
  if p.can_move p.direction game_map then p.move
  else if p.next_direction ≠ p.direction ∧ p.can_move p.next_direction game_map then
    ({ p with direction := p.next_direction }).move
  else { p with direction := .NONE }

/-- `Player.update(delta_time, game_map)`: power-up bookkeeping, two-phase
direction resolution, movement, animation counter. -/
def Player.update (delta_time : ℚ) (game_map : GameMap) (p : Player) : Player :=
  let q := Player.move_phase game_map (Player.resolve_turn game_map (Player.power_up_phase delta_time p))
  { q with animation_frame := q.animation_frame + 1 }

/-- `Player.lose_life`: decrement lives, clamped at zero. -/
def Player.lose_life (p : Player) : Player :=
  { p with lives := if p.lives - 1 < 0 then 0 else p.lives - 1 }

/-- `Player.eat_pellet`: add the pellet's value to the score. -/
def Player.eat_pellet (pellet_value : ℤ) (p : Player) : Player :=
  { p with score := p.score + pellet_value }

section PlayerLemmas

theorem Player.power_up_phase_position (dt : ℚ) (p : Player) :
    (Player.power_up_phase dt p).position = p.position := by
  unfold Player.power_up_phase
  split
  · split <;> rfl
  · rfl

theorem Player.power_up_phase_direction (dt : ℚ) (p : Player) :
    (Player.power_up_phase dt p).direction = p.direction := by
  unfold Player.power_up_phase
  split
  · split <;> rfl
  · rfl

theorem Player.power_up_phase_next_direction (dt : ℚ) (p : Player) :
    (Player.power_up_phase dt p).next_direction = p.next_direction := by
  unfold Player.power_up_phase
  split
  · split <;> rfl
  · rfl

theorem Player.power_up_phase_speed (dt : ℚ) (p : Player) :
    (Player.power_up_phase dt p).speed = p.speed := by
  unfold Player.power_up_phase
  split
  · split <;> rfl
  · rfl

theorem Player.power_up_phase_can_move (dt : ℚ) (p : Player) (d : Direction) (m : GameMap) :
    (Player.power_up_phase dt p).can_move d m = p.can_move d m := by
  unfold Player.can_move
  rw [Player.power_up_phase_position, Player.power_up_phase_speed]

end PlayerLemmas

theorem Player.can_move_none (p : Player) (m : GameMap) :
    p.can_move .NONE m = false := by
  simp [Player.can_move, canMoveFrom]

theorem Player.can_move_ne_none {p : Player} {d : Direction} {m : GameMap}
    (h : p.can_move d m = true) : d ≠ .NONE := by
  intro hd
  subst hd
  rw [Player.can_move_none] at h
  exact Bool.false_ne_true h

theorem Player.power_up_phase_split (dt : ℚ) (p : Player) :
    ∃ a t, Player.power_up_phase dt p = { p with power_up_active := a, power_up_timer := t } := by
  unfold Player.power_up_phase
  split
  · split
    · exact ⟨_, _, rfl⟩
    · exact ⟨_, _, rfl⟩
  · exact ⟨p.power_up_active, p.power_up_timer, rfl⟩

/-- C5: each player tick resolves direction in two phases — (a) an
unobstructed requested direction different from the committed one is
committed; (b) if both committed and requested are obstructed the player
stops in place (direction `NONE`, position unchanged — no wall sliding);
(c) whenever the post-resolution committed direction is unobstructed the
position advances by exactly `direction_vector * speed`. -/
theorem player_update_two_phase (p : Player) (m : GameMap) (dt : ℚ) :
    (p.next_direction ≠ p.direction → p.can_move p.next_direction m = true →
      (Player.update dt m p).direction = p.next_direction ∧
      (Player.update dt m p).position = nextPos p.position p.next_direction p.speed) ∧
    (p.can_move p.direction m = false → p.can_move p.next_direction m = false →
      (Player.update dt m p).direction = Direction.NONE ∧
      (Player.update dt m p).position = p.position) ∧
    (∀ q, q = Player.resolve_turn m (Player.power_up_phase dt p) →
      q.can_move q.direction m = true →
      (Player.update dt m p).direction = q.direction ∧
      (Player.update dt m p).position = nextPos p.position q.direction p.speed) := by
  obtain ⟨A, T, hAT⟩ := Player.power_up_phase_split dt p
  have hcmAT : ∀ (d : Direction),
      Player.can_move { p with power_up_active := A, power_up_timer := T } d m =
        p.can_move d m := by
    intro d
    simp [Player.can_move]
  refine ⟨?_, ?_, ?_⟩
  · intro hne hcm
    unfold Player.update
    rw [hAT]
    unfold Player.resolve_turn
    simp only [hcmAT]
    rw [if_pos (by simpa using hne), if_pos hcm]
    unfold Player.move_phase
    simp only [Player.can_move, Player.move]
    simp only [Player.can_move] at hcm
    rw [if_pos hcm]
    have hnn : p.next_direction ≠ .NONE := by
      intro h
      rw [h] at hcm
      simp [canMoveFrom] at hcm
    rw [if_pos (by simpa using hnn)]
    exact ⟨rfl, rfl⟩
  · intro hd hn
    unfold Player.update
    rw [hAT]
    unfold Player.resolve_turn
    simp only [hcmAT]
    by_cases hne : p.next_direction = p.direction
    · rw [if_neg (by simpa using hne)]
      unfold Player.move_phase
      simp only [Player.can_move] at hd hn ⊢
      rw [if_neg (by simpa using hd)]
      rw [if_neg (by simp [hn])]
      exact ⟨rfl, rfl⟩
    · rw [if_pos (by simpa using hne), if_neg (by simp [hn]), if_pos (by simp [hd])]
      unfold Player.move_phase
      simp only [Player.can_move] at hd hn ⊢
      rw [if_neg (by simp [canMoveFrom])]
      rw [if_neg (by simp [hn])]
      exact ⟨rfl, rfl⟩
  · intro q hq hcm
    unfold Player.update
    rw [hAT] at hq ⊢
    rw [← hq]
    unfold Player.move_phase
    rw [if_pos hcm]
    have hqpos : q.position = p.position := by
      rw [hq]
      unfold Player.resolve_turn
      split
      · split
        · rfl
        · split <;> rfl
      · rfl
    have hqsp : q.speed = p.speed := by
      rw [hq]
      unfold Player.resolve_turn
      split
      · split
        · rfl
        · split <;> rfl
      · rfl
    unfold Player.move
    rw [if_pos (by simpa using Player.can_move_ne_none hcm)]
    simp [hqpos, hqsp]

/-- A 5×5 maze with one open horizontal corridor (row 2, cols 1–3). -/
def mCorridor : GameMap :=
  ⟨[[1, 1, 1, 1, 1],
    [1, 1, 1, 1, 1],
    [1, 0, 0, 0, 1],
    [1, 1, 1, 1, 1],
    [1, 1, 1, 1, 1]], 16⟩

/-- A 5×5 maze with a two-cell dead end (row 2, cols 2–3). -/
def mDeadEnd : GameMap :=
  ⟨[[1, 1, 1, 1, 1],
    [1, 1, 1, 1, 1],
    [1, 1, 0, 0, 1],
    [1, 1, 1, 1, 1],
    [1, 1, 1, 1, 1]], 16⟩

/-- Player committed RIGHT, requesting LEFT, in the open corridor. -/
def pTurn : Player := ⟨⟨40, 40⟩, .RIGHT, .LEFT, 2, 3, 0, false, 0, 0⟩

/-- Player committed UP, requesting DOWN, both blocked by corridor walls. -/
def pStuck : Player := ⟨⟨40, 40⟩, .UP, .DOWN, 2, 3, 0, false, 0, 0⟩

/-- Player committed RIGHT, requesting RIGHT, free to advance. -/
def pGo : Player := ⟨⟨40, 40⟩, .RIGHT, .RIGHT, 2, 3, 0, false, 0, 0⟩

/-- C5 witness: the three clauses at concrete inputs — a free queued turn is
committed, a doubly-blocked player stops in place, a free committed
direction advances by `direction_vector * speed`. -/
theorem player_update_two_phase_witness :
    ((Player.update 1 mCorridor pTurn).direction = pTurn.next_direction ∧
     (Player.update 1 mCorridor pTurn).position = nextPos pTurn.position pTurn.next_direction pTurn.speed) ∧
    ((Player.update 1 mCorridor pStuck).direction = Direction.NONE ∧
     (Player.update 1 mCorridor pStuck).position = pStuck.position) ∧
    ((Player.update 1 mCorridor pGo).direction =
       (Player.resolve_turn mCorridor (Player.power_up_phase 1 pGo)).direction ∧
     (Player.update 1 mCorridor pGo).position =
       nextPos pGo.position (Player.resolve_turn mCorridor (Player.power_up_phase 1 pGo)).direction pGo.speed) := by
  refine ⟨?_, ?_, ?_⟩
  · exact (player_update_two_phase pTurn mCorridor 1).1 (by decide)
      (by norm_num [pTurn, Player.can_move, canMoveFrom, nextPos, Direction.value,
        GameMap.is_valid_position, boxCorners, clearance_half_size, GameMap.is_wall,
        GameMap.cellCode, GameMap.height, GameMap.width, mCorridor, List.headD] <;> decide)
  · exact (player_update_two_phase pStuck mCorridor 1).2.1
      (by norm_num [pStuck, Player.can_move, canMoveFrom, nextPos, Direction.value,
        GameMap.is_valid_position, boxCorners, clearance_half_size, GameMap.is_wall,
        GameMap.cellCode, GameMap.height, GameMap.width, mCorridor, List.headD] <;> decide)
      (by norm_num [pStuck, Player.can_move, canMoveFrom, nextPos, Direction.value,
        GameMap.is_valid_position, boxCorners, clearance_half_size, GameMap.is_wall,
        GameMap.cellCode, GameMap.height, GameMap.width, mCorridor, List.headD] <;> decide)
  · exact (player_update_two_phase pGo mCorridor 1).2.2 _ rfl
      (by norm_num [pGo, Player.resolve_turn, Player.power_up_phase, Player.can_move,
        canMoveFrom, nextPos, Direction.value,
        GameMap.is_valid_position, boxCorners, clearance_half_size, GameMap.is_wall,
        GameMap.cellCode, GameMap.height, GameMap.width, mCorridor, List.headD] <;> decide)

/-- Ghost behaviour state (`self._state`: `"normal"` / `"vulnerable"`). -/
inductive GhostState where
  | normal
  | vulnerable
deriving DecidableEq, Repr

/-- Ghost tactical mode (`self._current_mode`: `"patrol"` / `"chase"`). -/
inductive GhostMode where
  | patrol
  | chase
deriving DecidableEq, Repr

/-- Ghost personality tag (`self._ghost_type`). -/
inductive GhostType where
  | red
  | pink
  | cyan
  | orange
deriving DecidableEq, Repr

/-- The `Ghost` of `src/src/game_objects.py`: kinematics, behaviour state,
mode, difficulty, A* path cache, patrol and spawn-delay bookkeeping. -/
structure Ghost where
  position : Vec
  direction : Direction
  next_direction : Direction
  speed : ℚ
  base_speed : ℚ
  ghost_type : GhostType
  state : GhostState
  vulnerable_timer : ℚ
  current_mode : GhostMode
  mode_timer : ℚ
  difficulty_multiplier : ℚ
  astar_frequency : ℤ
  current_path : List Vec
  path_index : ℕ
  recalculate_path_timer : ℚ
  last_target : Option Vec
  patrol_index : ℕ
  patrol_timer : ℚ
  is_in_spawn_delay : Bool
  spawn_delay_timer : ℚ
  initial_position : Vec
deriving DecidableEq, Repr

/-- `Ghost.__init__`: a freshly constructed ghost at (x, y) with the given
speed and type (state normal, patrol mode, difficulty multiplier 1, A*
recompute interval 2000 ms, empty path cache, no spawn delay). -/
def Ghost.init (x y : ℚ) (speed : ℚ) (ghost_type : GhostType) (ix iy : ℚ) : Ghost :=
  { position := ⟨x, y⟩
    direction := .NONE
    next_direction := .NONE
    speed := speed
    base_speed := speed
    ghost_type := ghost_type
    state := .normal
    vulnerable_timer := 0
    current_mode := .patrol
    mode_timer := 0
    difficulty_multiplier := 1
    astar_frequency := 2000
    current_path := []
    path_index := 0
    recalculate_path_timer := 0
    last_target := none
    patrol_index := 0
    patrol_timer := 0
    is_in_spawn_delay := false
    spawn_delay_timer := 0
    initial_position := ⟨ix, iy⟩ }

/-- `Ghost.can_move`: movement test with the `"ghost"` clearance kind. -/
def Ghost.can_move (g : Ghost) (direction : Direction) (game_map : GameMap) : Bool :=
  canMoveFrom g.position g.speed direction game_map .ghost

/-- `Ghost.get_difficulty_adjusted_vulnerable_duration`: scales the base
duration down by `(multiplier - 1) * 0.85`, truncates, floors at 1000 ms. -/
def Ghost.get_difficulty_adjusted_vulnerable_duration (g : Ghost) (base_duration : ℚ) : ℤ :=
  max (pyInt (base_duration * (1 - (g.difficulty_multiplier - 1) * (85 / 100)))) 1000

/-- `Ghost.get_difficulty_adjusted_mode_timing`: patrol duration shrinks
with difficulty (floor 2000 ms), chase duration grows (cap 40000 ms). -/
def Ghost.get_difficulty_adjusted_mode_timing (g : Ghost) : ℤ × ℤ :=
  (max (pyInt (10000 * (1 - (g.difficulty_multiplier - 1) * (45 / 100)))) 2000,
   min (pyInt (15000 * (1 + (g.difficulty_multiplier - 1) * (8 / 10)))) 40000)

/-- `Ghost.set_difficulty(difficulty_level)`: multiplier `1 + min(level/100, 2)`,
speed reset to base speed, A* recompute interval shortened (floor 200 ms). -/
def Ghost.set_difficulty (g : Ghost) (difficulty_level : ℚ) : Ghost :=
  { g with
    difficulty_multiplier := 1 + min (difficulty_level / 100) 2
    speed := g.base_speed
    astar_frequency :=
      max (pyInt (2000 * (1 - min (difficulty_level / 100) 2 * (4 / 10)))) 200 }

/-- `Ghost.set_vulnerable(duration)`: state becomes vulnerable, the timer is
set to the difficulty-adjusted duration, and the speed drops by 1 unit but
never below 1. -/
def Ghost.set_vulnerable (g : Ghost) (duration : ℚ) : Ghost :=
  { g with
    state := .vulnerable
    vulnerable_timer := ((g.get_difficulty_adjusted_vulnerable_duration duration : ℤ) : ℚ)
    speed := max 1 (g.speed - 1) }

/-- The vulnerability-timer fragment at the top of `Ghost.update` (run when
the ghost is not in spawn delay): the timer decreases by the elapsed
milliseconds and, on expiry, the state returns to normal with the speed set
to the literal 1.5. -/
def Ghost.update_vulnerability (delta_time : ℚ) (g : Ghost) : Ghost :=
  if g.state = .vulnerable then
    if g.vulnerable_timer - delta_time * 1000 ≤ 0 then
      { g with vulnerable_timer := g.vulnerable_timer - delta_time * 1000,
               state := .normal, speed := 3 / 2 }
    else
      { g with vulnerable_timer := g.vulnerable_timer - delta_time * 1000 }
  else g

/-- The `possible_directions` list built by `Ghost.choose_direction`: each
unobstructed direction among UP/DOWN/LEFT/RIGHT paired with the squared
Euclidean distance from the stepped position to the target. -/
def Ghost.possible_directions (g : Ghost) (game_map : GameMap) (target_position : Vec) :
    List (Direction × ℚ) :=
  [Direction.UP, Direction.DOWN, Direction.LEFT, Direction.RIGHT].filterMap fun d =>
    if g.can_move d game_map then
      some (d, distSq (nextPos g.position d g.speed) target_position)
    else none

/-- Python's `max(list, key=...)`: the first element attaining the maximum
key, via a left fold that replaces the accumulator only on strict increase. -/
def runMax (x : Direction × ℚ) (xs : List (Direction × ℚ)) : Direction × ℚ :=
  xs.foldl (fun b y => if b.2 < y.2 then y else b) x

/-- Python's `min(list, key=...)`: the first element attaining the minimum key. -/
def runMin (x : Direction × ℚ) (xs : List (Direction × ℚ)) : Direction × ℚ :=
  xs.foldl (fun b y => if y.2 < b.2 then y else b) x

/-- `Ghost.choose_direction`: among unobstructed directions pick the one
maximising distance to the target when vulnerable, minimising it otherwise;
`NONE` when fully blocked. -/
def Ghost.choose_direction (g : Ghost) (game_map : GameMap) (target_position : Vec) :
    Direction :=
  match g.possible_directions game_map target_position with
  | [] => .NONE
  | x :: xs =>
      if g.state = .vulnerable then (runMax x xs).1 else (runMin x xs).1

theorem runMax_mem (x : Direction × ℚ) (xs : List (Direction × ℚ)) :
    runMax x xs ∈ x :: xs := by
  induction xs generalizing x with
  | nil => simp [runMax]
  | cons y ys ih =>
      unfold runMax at ih ⊢
      simp only [List.foldl_cons]
      by_cases h : x.2 < y.2
      · rw [if_pos h]
        have := ih y
        simp only [List.mem_cons] at this ⊢
        tauto
      · rw [if_neg h]
        have := ih x
        simp only [List.mem_cons] at this ⊢
        tauto

theorem runMax_le (x : Direction × ℚ) (xs : List (Direction × ℚ)) :
    ∀ z ∈ x :: xs, z.2 ≤ (runMax x xs).2 := by
  induction xs generalizing x with
  | nil => simp [runMax]
  | cons y ys ih =>
      intro z hz
      unfold runMax at ih ⊢
      simp only [List.foldl_cons]
      simp only [List.mem_cons] at hz
      by_cases h : x.2 < y.2
      · rw [if_pos h]
        have hy := ih y y (by simp)
        rcases hz with h1 | h1 | h1
        · subst h1
          exact le_trans (le_of_lt h) hy
        · subst h1
          exact hy
        · exact ih y z (by simp [h1])
      · rw [if_neg h]
        have hx := ih x x (by simp)
        rcases hz with h1 | h1 | h1
        · subst h1
          exact hx
        · subst h1
          exact le_trans (le_of_not_lt h) hx
        · exact ih x z (by simp [h1])

/-- C1 (amended): a vulnerable ghost with at least one unobstructed direction
chooses a direction whose stepped distance to the target is maximal among
the unobstructed ones; consequently, whenever two unobstructed directions
have different distances, the chosen direction does not attain the minimum. -/
theorem choose_direction_vulnerable_flees (g : Ghost) (game_map : GameMap)
    (target : Vec) (hv : g.state = GhostState.vulnerable)
    (hne : g.possible_directions game_map target ≠ []) :
    ∃ q, (g.choose_direction game_map target, q) ∈ g.possible_directions game_map target ∧
      (∀ p ∈ g.possible_directions game_map target, p.2 ≤ q) ∧
      ((∃ p ∈ g.possible_directions game_map target,
          ∃ r ∈ g.possible_directions game_map target, p.2 < r.2) →
        ∃ p ∈ g.possible_directions game_map target, p.2 < q) := by
  rcases hl : g.possible_directions game_map target with _ | ⟨x, xs⟩
  · exact absurd hl hne
  · have hcd : g.choose_direction game_map target = (runMax x xs).1 := by
      unfold Ghost.choose_direction
      rw [hl]
      show (if g.state = GhostState.vulnerable then (runMax x xs).1 else (runMin x xs).1) =
        (runMax x xs).1
      rw [if_pos hv]
    refine ⟨(runMax x xs).2, ?_, ?_, ?_⟩
    · rw [hcd]
      simpa using runMax_mem x xs
    · intro p hp
      exact runMax_le x xs p hp
    · rintro ⟨p, hp, r, hr, hpr⟩
      exact ⟨p, hp, lt_of_lt_of_le hpr (runMax_le x xs r hr)⟩

/-- Vulnerable ghost in the dead end at (40, 40), speed 16 (one step = one
cell), only RIGHT unobstructed. -/
def gDeadEnd : Ghost := { Ghost.init 40 40 16 .red 40 40 with state := .vulnerable }

/-- Vulnerable ghost in the open corridor at (40, 40), speed 16: LEFT and
RIGHT unobstructed, with different distances to the target (200, 40). -/
def gFlee : Ghost := { Ghost.init 40 40 16 .red 40 40 with state := .vulnerable }

/-- C1 counterexample: a vulnerable ghost in `chase`-relevant conditions with
exactly one unobstructed direction (RIGHT, towards the target at (200, 40))
returns RIGHT, which *is* the direction minimising the distance to the
target among the unobstructed directions — contradicting "never returns the
direction that minimizes that distance". -/
theorem choose_direction_single_direction_minimizes :
    gDeadEnd.state = GhostState.vulnerable ∧
    gDeadEnd.possible_directions mDeadEnd ⟨200, 40⟩ = [(Direction.RIGHT, 20736)] ∧
    gDeadEnd.choose_direction mDeadEnd ⟨200, 40⟩ = Direction.RIGHT ∧
    (∀ p ∈ gDeadEnd.possible_directions mDeadEnd ⟨200, 40⟩, 20736 ≤ p.2) := by
  have hposs : gDeadEnd.possible_directions mDeadEnd ⟨200, 40⟩ =
      [(Direction.RIGHT, 20736)] := by
    norm_num [Ghost.possible_directions, List.filterMap_cons, Ghost.can_move,
      canMoveFrom, nextPos,
      Direction.value, GameMap.is_valid_position, boxCorners, clearance_half_size,
      GameMap.is_wall, GameMap.cellCode, GameMap.height, GameMap.width,
      mDeadEnd, gDeadEnd, Ghost.init, distSq, List.headD] <;> decide
  refine ⟨rfl, hposs, ?_, ?_⟩
  · unfold Ghost.choose_direction
    rw [hposs]
    rfl
  · intro p hp
    rw [hposs] at hp
    simp only [List.mem_singleton] at hp
    subst hp
    norm_num

/-- C1 witness: the amended theorem applied at a vulnerable ghost with two
unobstructed directions (LEFT at squared distance 30976, RIGHT at 20736). -/
theorem choose_direction_vulnerable_flees_witness :
    gFlee.state = GhostState.vulnerable ∧
    gFlee.possible_directions mCorridor ⟨200, 40⟩ ≠ [] ∧
    (∃ q, (gFlee.choose_direction mCorridor ⟨200, 40⟩, q) ∈
        gFlee.possible_directions mCorridor ⟨200, 40⟩ ∧
      (∀ p ∈ gFlee.possible_directions mCorridor ⟨200, 40⟩, p.2 ≤ q) ∧
      ((∃ p ∈ gFlee.possible_directions mCorridor ⟨200, 40⟩,
          ∃ r ∈ gFlee.possible_directions mCorridor ⟨200, 40⟩, p.2 < r.2) →
        ∃ p ∈ gFlee.possible_directions mCorridor ⟨200, 40⟩, p.2 < q)) := by
  have hposs : gFlee.possible_directions mCorridor ⟨200, 40⟩ =
      [(Direction.LEFT, 30976), (Direction.RIGHT, 20736)] := by
    norm_num [Ghost.possible_directions, List.filterMap_cons, Ghost.can_move,
      canMoveFrom, nextPos,
      Direction.value, GameMap.is_valid_position, boxCorners, clearance_half_size,
      GameMap.is_wall, GameMap.cellCode, GameMap.height, GameMap.width,
      mCorridor, gFlee, Ghost.init, distSq, List.headD] <;> decide
  exact ⟨rfl, by rw [hposs]; exact List.cons_ne_nil _ _,
    choose_direction_vulnerable_flees gFlee mCorridor ⟨200, 40⟩ rfl
      (by rw [hposs]; exact List.cons_ne_nil _ _)⟩

/-- Ghost with base speed 3 (different from the literal 1.5), used to show
the expiry speed is not the pre-vulnerability speed. -/
def gFast : Ghost := Ghost.init 40 40 3 .red 40 40

/-- C7 counterexample: a ghost with speed 3 enters vulnerability (speed drops
to 2); when the timer expires its speed becomes the literal 1.5, not its
pre-vulnerability value 3. -/
theorem vulnerability_expiry_speed_not_restored :
    gFast.speed = 3 ∧
    (gFast.set_vulnerable 8000).speed = 2 ∧
    (Ghost.update_vulnerability 9 (gFast.set_vulnerable 8000)).state = GhostState.normal ∧
    (Ghost.update_vulnerability 9 (gFast.set_vulnerable 8000)).speed = 3 / 2 ∧
    (3 / 2 : ℚ) ≠ 3 := by
  refine ⟨rfl, ?_, ?_, ?_, by norm_num⟩
  · norm_num [gFast, Ghost.init, Ghost.set_vulnerable]
  · norm_num [gFast, Ghost.init, Ghost.set_vulnerable, Ghost.update_vulnerability,
      Ghost.get_difficulty_adjusted_vulnerable_duration, pyInt]
  · norm_num [gFast, Ghost.init, Ghost.set_vulnerable, Ghost.update_vulnerability,
      Ghost.get_difficulty_adjusted_vulnerable_duration, pyInt]

/-- C7 (amended): entering vulnerability reduces the speed by 1 unit clamped
at 1, and on timer expiry the ghost returns to the normal state with its
speed set to the constant 1.5 (the game ghosts' construction speed), which
is not in general the pre-vulnerability value. -/
theorem set_vulnerable_and_expiry (g : Ghost) (duration delta_time : ℚ) :
    (g.set_vulnerable duration).state = GhostState.vulnerable ∧
    (g.set_vulnerable duration).speed = max 1 (g.speed - 1) ∧
    1 ≤ (g.set_vulnerable duration).speed ∧
    (g.state = GhostState.vulnerable → g.vulnerable_timer - delta_time * 1000 ≤ 0 →
      (Ghost.update_vulnerability delta_time g).state = GhostState.normal ∧
      (Ghost.update_vulnerability delta_time g).speed = 3 / 2) := by
  refine ⟨rfl, rfl, le_max_left 1 _, ?_⟩
  intro hs ht
  unfold Ghost.update_vulnerability
  rw [if_pos hs, if_pos ht]
  exact ⟨rfl, rfl⟩

/-- C7 witness: the amended theorem applied to `gFast` after
`set_vulnerable 8000`, with an elapsed time that expires the timer. -/
theorem set_vulnerable_and_expiry_witness :
    ((gFast.set_vulnerable 8000).set_vulnerable 8000).state = GhostState.vulnerable ∧
    ((gFast.set_vulnerable 8000).set_vulnerable 8000).speed =
      max 1 ((gFast.set_vulnerable 8000).speed - 1) ∧
    1 ≤ ((gFast.set_vulnerable 8000).set_vulnerable 8000).speed ∧
    ((Ghost.update_vulnerability 9 (gFast.set_vulnerable 8000)).state = GhostState.normal ∧
     (Ghost.update_vulnerability 9 (gFast.set_vulnerable 8000)).speed = 3 / 2) := by
  have h := set_vulnerable_and_expiry (gFast.set_vulnerable 8000) 8000 9
  exact ⟨h.1, h.2.1, h.2.2.1, h.2.2.2 rfl
    (by norm_num [gFast, Ghost.init, Ghost.set_vulnerable,
      Ghost.get_difficulty_adjusted_vulnerable_duration, pyInt])⟩

/-- C8: for any ghost, difficulty 200 gives a strictly shorter vulnerability
duration than difficulty 0 (with the 1000 ms floor always respected), and a
strictly shorter patrol window (patrol never below 2000 ms, chase never
above 40000 ms, at every difficulty level). -/
theorem difficulty_scaling_monotone (g : Ghost) :
    (g.set_difficulty 200).get_difficulty_adjusted_vulnerable_duration 8000 <
      (g.set_difficulty 0).get_difficulty_adjusted_vulnerable_duration 8000 ∧
    (∀ level : ℚ, 1000 ≤ (g.set_difficulty level).get_difficulty_adjusted_vulnerable_duration 8000) ∧
    (g.set_difficulty 200).get_difficulty_adjusted_mode_timing.1 <
      (g.set_difficulty 0).get_difficulty_adjusted_mode_timing.1 ∧
    (∀ level : ℚ,
      2000 ≤ (g.set_difficulty level).get_difficulty_adjusted_mode_timing.1 ∧
      (g.set_difficulty level).get_difficulty_adjusted_mode_timing.2 ≤ 40000) := by
  refine ⟨?_, ?_, ?_, ?_⟩
  · norm_num [Ghost.set_difficulty, Ghost.get_difficulty_adjusted_vulnerable_duration, pyInt]
  · intro level
    exact le_max_right _ 1000
  · norm_num [Ghost.set_difficulty, Ghost.get_difficulty_adjusted_mode_timing, pyInt]
  · intro level
    exact ⟨le_max_right _ 2000, min_le_right _ 40000⟩

/-- A* search node (`AStarNode` of `src/src/utils.py`): position, g-cost,
h-cost and parent link (`None` for the root). -/
inductive ANode : Type where
  | mk : Vec → ℚ → ℚ → Option ANode → ANode

/-- The node's position. -/
def ANode.position : ANode → Vec
  | .mk p _ _ _ => p

/-- The node's accumulated cost from the start. -/
def ANode.g_cost : ANode → ℚ
  | .mk _ g _ _ => g

/-- `f_cost = g_cost + h_cost`, the priority-queue key. -/
def ANode.f_cost : ANode → ℚ
  | .mk _ g h _ => g + h

/-- `AStar.heuristic` with the default `"manhattan"` type (the one the ghosts
always request); `find_path` below is parametric in the heuristic function,
covering the selectable Euclidean/Chebyshev variants as well. -/
def AStar.heuristic (pos1 pos2 : Vec) : ℚ := |pos1.x - pos2.x| + |pos1.y - pos2.y|

/-- `AStar.get_neighbors`: the 4-connected neighbours at one cell size,
in the order UP, DOWN, LEFT, RIGHT. -/
def AStar.get_neighbors (position : Vec) (cell_size : ℚ) : List Vec :=
  [⟨position.x, position.y - cell_size⟩, ⟨position.x, position.y + cell_size⟩,
   ⟨position.x - cell_size, position.y⟩, ⟨position.x + cell_size, position.y⟩]

/-- The node positions from the goal node back to the root, following
parent links (the `while current` loop of `AStar.reconstruct_path`). -/
def AStar.collect_positions : ANode → List Vec
  | .mk p _ _ none => [p]
  | .mk p _ _ (some par) => p :: AStar.collect_positions par

/-- `AStar.reconstruct_path`: parent-link walk, reversed to run
start-to-goal. -/
def AStar.reconstruct_path (node : ANode) : List Vec :=
  (AStar.collect_positions node).reverse

/-- `heapq.heappop` on the open list: removes a node with minimal `f_cost`
(the first such node; tie order among equal keys is unspecified in the
source and irrelevant to the claims below). -/
def popMinNode : List ANode → Option (ANode × List ANode)
  | [] => none
  | x :: xs =>
      match popMinNode xs with
      | none => some (x, [])
      | some (m, rest) => if m.f_cost < x.f_cost then some (m, x :: rest) else some (x, xs)

/-- Lookup in the `best_costs` dictionary (keyed by position). -/
def lookupCost : List (Vec × ℚ) → Vec → Option ℚ
  | [], _ => none
  | (k, c) :: rest, key => if k = key then some c else lookupCost rest key

/-- The neighbour-examination loop of `AStar.find_path`: skip closed or
invalid (ghost-clearance) cells; push a new node with `g + 16` when the
position is new or reached more cheaply, recording the better cost. -/
def processNeighbors (game_map : GameMap) (goal : Vec) (heur : Vec → Vec → ℚ)
    (cur : ANode) (closed : List Vec) :
    List Vec → List ANode × List (Vec × ℚ) → List ANode × List (Vec × ℚ)
  | [], acc => acc
  | npos :: rest, (openL, best) =>
      if closed.contains npos then
        processNeighbors game_map goal heur cur closed rest (openL, best)
      else if ¬ game_map.is_valid_position npos 16 .ghost then
        processNeighbors game_map goal heur cur closed rest (openL, best)
      else
        match lookupCost best npos with
        | some c =>
            if cur.g_cost + 16 < c then
              processNeighbors game_map goal heur cur closed rest
                (ANode.mk npos (cur.g_cost + 16) (heur npos goal) (some cur) :: openL,
                 (npos, cur.g_cost + 16) :: best)
            else
              processNeighbors game_map goal heur cur closed rest (openL, best)
        | none =>
            processNeighbors game_map goal heur cur closed rest
              (ANode.mk npos (cur.g_cost + 16) (heur npos goal) (some cur) :: openL,
               (npos, cur.g_cost + 16) :: best)

/-- The `while open_list` loop of `AStar.find_path` (fuel-indexed; `none`
models only an out-of-fuel cutoff, which the terminating Python loop never
hits): pop a minimal-f node; success within the 8-pixel tolerance
(`distance < 8`, i.e. squared distance < 64); exhaustion returns `[]`. -/
def astarLoop (game_map : GameMap) (goal : Vec) (heur : Vec → Vec → ℚ) :
    ℕ → List ANode → List Vec → List (Vec × ℚ) → Option (List Vec)
  | 0, _, _, _ => none
  | fuel + 1, openL, closed, best =>
      match popMinNode openL with
      | none => some []
      | some (cur, rest) =>
          if distSq cur.position goal < 64 then some (AStar.reconstruct_path cur)
          else
            astarLoop game_map goal heur fuel
              (processNeighbors game_map goal heur cur (cur.position :: closed)
                (AStar.get_neighbors cur.position 16) (rest, best)).1
              (cur.position :: closed)
              (processNeighbors game_map goal heur cur (cur.position :: closed)
                (AStar.get_neighbors cur.position 16) (rest, best)).2

/-- `AStar.find_path`: the loop started from the start node (g = 0,
`best_costs = {start: 0}`, empty closed set). -/
def AStar.find_path (start goal : Vec) (game_map : GameMap) (heur : Vec → Vec → ℚ)
    (fuel : ℕ) : Option (List Vec) :=
  astarLoop game_map goal heur fuel [ANode.mk start 0 (heur start goal) none] [] [(start, 0)]

/-- One waypoint step: exactly one cell size (16 px, the value hardcoded in
`find_path`/`get_neighbors`) along a single axis. -/
def stepOk (a b : Vec) : Prop :=
  (b.x - a.x, b.y - a.y) ∈ ([(0, -16), (0, 16), (-16, 0), (16, 0)] : List (ℚ × ℚ))

/-- A node whose parent chain starts at `start` and advances by single-cell
steps — the invariant maintained for every node in the open list. -/
def GoodNode (start : Vec) : ANode → Prop
  | .mk p _ _ none => p = start
  | .mk p _ _ (some par) => stepOk par.position p ∧ GoodNode start par

theorem popMinNode_mem :
    ∀ (l : List ANode) (x : ANode) (rest : List ANode),
      popMinNode l = some (x, rest) → x ∈ l ∧ ∀ y ∈ rest, y ∈ l := by
  intro l
  induction l with
  | nil => intro x rest hx; simp [popMinNode] at hx
  | cons a as ih =>
      intro x rest hx
      unfold popMinNode at hx
      rcases hm : popMinNode as with _ | ⟨m, mrest⟩
      · rw [hm] at hx
        simp at hx
        obtain ⟨rfl, rfl⟩ := hx
        exact ⟨by simp, by simp⟩
      · rw [hm] at hx
        simp only at hx
        obtain ⟨hmem, hsub⟩ := ih m mrest hm
        by_cases hlt : m.f_cost < a.f_cost
        · rw [if_pos hlt] at hx
          simp at hx
          obtain ⟨rfl, rfl⟩ := hx
          refine ⟨by simp [hmem], ?_⟩
          intro y hy
          simp only [List.mem_cons] at hy ⊢
          rcases hy with rfl | hy
          · left; rfl
          · right; exact hsub y hy
        · rw [if_neg hlt] at hx
          simp at hx
          obtain ⟨rfl, rfl⟩ := hx
          exact ⟨by simp, fun y hy => by simp [hy]⟩

theorem get_neighbors_stepOk (p : Vec) :
    ∀ np ∈ AStar.get_neighbors p 16, stepOk p np := by
  intro np hnp
  simp only [AStar.get_neighbors, List.mem_cons, List.mem_singleton,
    List.not_mem_nil, or_false] at hnp
  rcases hnp with rfl | rfl | rfl | rfl <;>
    · simp only [stepOk, List.mem_cons, List.not_mem_nil, or_false, Prod.mk.injEq]
      norm_num

theorem collect_positions_ne_nil :
    ∀ n : ANode, AStar.collect_positions n ≠ []
  | .mk p g h none => by simp [AStar.collect_positions]
  | .mk p g h (some par) => by simp [AStar.collect_positions]

theorem collect_good (start : Vec) :
    ∀ n : ANode, GoodNode start n →
      (AStar.collect_positions n).head? = some n.position ∧
      (AStar.collect_positions n).getLast? = some start ∧
      List.Chain' (flip stepOk) (AStar.collect_positions n)
  | .mk p g h none, hg => by
      obtain rfl : p = start := hg
      simp [AStar.collect_positions, ANode.position]
  | .mk p g h (some par), hg => by
      obtain ⟨hstep, hgpar⟩ := hg
      obtain ⟨ih1, ih2, ih3⟩ := collect_good start par hgpar
      refine ⟨by simp [AStar.collect_positions, ANode.position], ?_, ?_⟩
      · rw [AStar.collect_positions]
        rcases hcp : AStar.collect_positions par with _ | ⟨b, l⟩
        · exact absurd hcp (collect_positions_ne_nil par)
        · rw [List.getLast?_cons_cons, ← hcp]
          exact ih2
      · rw [AStar.collect_positions]
        rw [List.chain'_cons' ]
        refine ⟨?_, ih3⟩
        intro y hy
        rw [ih1] at hy
        simp at hy
        subst hy
        exact hstep

theorem reconstruct_good (start : Vec) (n : ANode) (hg : GoodNode start n) :
    (AStar.reconstruct_path n).head? = some start ∧
    List.Chain' stepOk (AStar.reconstruct_path n) ∧
    (AStar.reconstruct_path n).getLast? = some n.position := by
  obtain ⟨h1, h2, h3⟩ := collect_good start n hg
  unfold AStar.reconstruct_path
  refine ⟨?_, ?_, ?_⟩
  · rw [List.head?_reverse]
    exact h2
  · rw [List.chain'_reverse]
    exact h3
  · rw [List.getLast?_reverse]
    exact h1

theorem processNeighbors_good (game_map : GameMap) (goal : Vec) (heur : Vec → Vec → ℚ)
    (cur : ANode) (closed : List Vec) (start : Vec) (hcur : GoodNode start cur) :
    ∀ (nps : List Vec) (openL : List ANode) (best : List (Vec × ℚ)),
      (∀ n ∈ openL, GoodNode start n) →
      (∀ np ∈ nps, stepOk cur.position np) →
      ∀ n ∈ (processNeighbors game_map goal heur cur closed nps (openL, best)).1,
        GoodNode start n := by
  intro nps
  induction nps with
  | nil =>
      intro openL best hopen _ n hn
      exact hopen n hn
  | cons np rest ih =>
      intro openL best hopen hsteps n hn
      have hstep : stepOk cur.position np := hsteps np (by simp)
      have hrest : ∀ q ∈ rest, stepOk cur.position q := fun q hq => hsteps q (by simp [hq])
      unfold processNeighbors at hn
      by_cases hcl : closed.contains np
      · rw [if_pos hcl] at hn
        exact ih openL best hopen hrest n hn
      · rw [if_neg hcl] at hn
        by_cases hval : game_map.is_valid_position np 16 .ghost = true
        · rw [if_neg (by simp [hval])] at hn
          rcases hlk : lookupCost best np with _ | c
          · rw [hlk] at hn
            simp only at hn
            refine ih _ _ ?_ hrest n hn
            intro q hq
            simp only [List.mem_cons] at hq
            rcases hq with rfl | hq
            · exact ⟨hstep, hcur⟩
            · exact hopen q hq
          · rw [hlk] at hn
            simp only at hn
            by_cases hlt : cur.g_cost + 16 < c
            · rw [if_pos hlt] at hn
              refine ih _ _ ?_ hrest n hn
              intro q hq
              simp only [List.mem_cons] at hq
              rcases hq with rfl | hq
              · exact ⟨hstep, hcur⟩
              · exact hopen q hq
            · rw [if_neg hlt] at hn
              exact ih openL best hopen hrest n hn
        · rw [if_pos (by simp [hval])] at hn
          exact ih openL best hopen hrest n hn

theorem astarLoop_sound (game_map : GameMap) (goal : Vec) (heur : Vec → Vec → ℚ)
    (start : Vec) :
    ∀ (fuel : ℕ) (openL : List ANode) (closed : List Vec) (best : List (Vec × ℚ)),
      (∀ n ∈ openL, GoodNode start n) →
      ∀ p, astarLoop game_map goal heur fuel openL closed best = some p →
        p = [] ∨
        (p.head? = some start ∧ List.Chain' stepOk p ∧
          ∃ lp, p.getLast? = some lp ∧ distSq lp goal < 64) := by
  intro fuel
  induction fuel with
  | zero =>
      intro openL closed best _ p hp
      simp [astarLoop] at hp
  | succ n ih =>
      intro openL closed best hopen p hp
      unfold astarLoop at hp
      rcases hpop : popMinNode openL with _ | ⟨cur, rest⟩
      · rw [hpop] at hp
        simp at hp
        exact Or.inl hp
      · rw [hpop] at hp
        simp only at hp
        obtain ⟨hcmem, hrsub⟩ := popMinNode_mem openL cur rest hpop
        have hcur : GoodNode start cur := hopen cur hcmem
        by_cases hgoal : distSq cur.position goal < 64
        · rw [if_pos hgoal] at hp
          simp at hp
          right
          obtain ⟨g1, g2, g3⟩ := reconstruct_good start cur hcur
          rw [← hp]
          exact ⟨g1, g2, cur.position, g3, hgoal⟩
        · rw [if_neg hgoal] at hp
          refine ih _ _ _ ?_ p hp
          refine processNeighbors_good game_map goal heur cur (cur.position :: closed)
            start hcur (AStar.get_neighbors cur.position 16) rest best
            (fun q hq => hopen q (hrsub q hq)) (get_neighbors_stepOk cur.position)

/-- A 5×5 maze with a single free cell (row 2, col 2), so every A* neighbour
is blocked and the open set exhausts without reaching a distant goal. -/
def mWalled : GameMap :=
  ⟨[[1, 1, 1, 1, 1],
    [1, 1, 1, 1, 1],
    [1, 1, 0, 1, 1],
    [1, 1, 1, 1, 1],
    [1, 1, 1, 1, 1]], 16⟩

/-- C3: exhausting the open set returns the empty path (`return []`), never
an error — for every maze, goal, heuristic and loop state; concretely,
`find_path` from the fully-enclosed cell of `mWalled` to a distant goal
exhausts after expanding the start node and yields `some []`. -/
theorem find_path_exhaustion_returns_empty :
    (∀ (game_map : GameMap) (goal : Vec) (heur : Vec → Vec → ℚ) (fuel : ℕ)
        (closed : List Vec) (best : List (Vec × ℚ)),
        astarLoop game_map goal heur (fuel + 1) [] closed best = some []) ∧
    AStar.find_path ⟨40, 40⟩ ⟨200, 40⟩ mWalled AStar.heuristic 50 = some [] := by
  constructor
  · intro game_map goal heur fuel closed best
    unfold astarLoop
    rfl
  · norm_num [AStar.find_path, astarLoop, popMinNode, ANode.position, ANode.f_cost,
      ANode.g_cost, distSq, processNeighbors, AStar.get_neighbors, lookupCost,
      GameMap.is_valid_position, boxCorners, clearance_half_size, GameMap.is_wall,
      GameMap.cellCode, GameMap.height, GameMap.width, mWalled, List.headD,
      AStar.heuristic] <;> decide

/-- C4: every non-empty path returned by `find_path` starts at the start
position, advances by exactly one cell size (16 px) along a single axis per
step, and ends within the 8-pixel goal tolerance (squared distance < 64). -/
theorem find_path_waypoints (start goal : Vec) (game_map : GameMap)
    (heur : Vec → Vec → ℚ) (fuel : ℕ) (p : List Vec)
    (hp : AStar.find_path start goal game_map heur fuel = some p) (hne : p ≠ []) :
    p.head? = some start ∧ List.Chain' stepOk p ∧
    ∃ lp, p.getLast? = some lp ∧ distSq lp goal < 64 := by
  have hroot : ∀ n ∈ [ANode.mk start 0 (heur start goal) none], GoodNode start n := by
    intro n hn
    simp at hn
    subst hn
    rfl
  have := astarLoop_sound game_map goal heur start fuel
    [ANode.mk start 0 (heur start goal) none] [] [(start, 0)] hroot p hp
  rcases this with h | h
  · exact absurd h hne
  · exact h

/-- C4 witness: in the corridor maze with the goal 2 px from the start the
search succeeds immediately with the non-empty path `[start]`, whose single
waypoint is the start and is within tolerance of the goal. -/
theorem find_path_waypoints_witness :
    AStar.find_path ⟨24, 40⟩ ⟨26, 40⟩ mCorridor AStar.heuristic 3 = some [⟨24, 40⟩] ∧
    ([(⟨24, 40⟩ : Vec)].head? = some ⟨24, 40⟩ ∧ List.Chain' stepOk [⟨24, 40⟩] ∧
      ∃ lp, ([(⟨24, 40⟩ : Vec)].getLast? = some lp ∧ distSq lp ⟨26, 40⟩ < 64)) := by
  have heval : AStar.find_path ⟨24, 40⟩ ⟨26, 40⟩ mCorridor AStar.heuristic 3 =
      some [⟨24, 40⟩] := by
    norm_num [AStar.find_path, astarLoop, popMinNode, ANode.position, distSq,
      AStar.reconstruct_path, AStar.collect_positions, AStar.heuristic]
  exact ⟨heval, find_path_waypoints ⟨24, 40⟩ ⟨26, 40⟩ mCorridor AStar.heuristic 3
    [⟨24, 40⟩] heval (by simp)⟩

/-- The application game states (`GameState` of `src/src/utils.py`). -/
inductive GameState where
  | MENU
  | PLAYING
  | GAME_OVER
  | PAUSED
  | VICTORY
  | OPTIONS
  | HISTORY
  | INTERMISSION
deriving DecidableEq, Repr

/-- `Ghost.reset_position`: back to spawn, normal state, base speed, patrol
mode, cleared path cache and timers, no spawn delay. -/
def Ghost.reset_position (g : Ghost) : Ghost :=
  { g with
    position := g.initial_position
    state := .normal
    speed := g.base_speed
    vulnerable_timer := 0
    current_mode := .patrol
    mode_timer := 0
    current_path := []
    path_index := 0
    recalculate_path_timer := 0
    last_target := none
    patrol_index := 0
    patrol_timer := 0
    is_in_spawn_delay := false
    spawn_delay_timer := 0 }

/-- `Ghost.set_eaten_with_delay`: like `reset_position` but entering the
5000 ms spawn-delay lifecycle. -/
def Ghost.set_eaten_with_delay (g : Ghost) : Ghost :=
  { g with
    position := g.initial_position
    state := .normal
    speed := g.base_speed
    vulnerable_timer := 0
    current_mode := .patrol
    mode_timer := 0
    current_path := []
    path_index := 0
    recalculate_path_timer := 0
    last_target := none
    patrol_index := 0
    patrol_timer := 0
    is_in_spawn_delay := true
    spawn_delay_timer := 5000 }

/-- The state acted on by the ghost-collision loop at the end of
`Game.update` (`src/main.py` lines 563–581). -/
structure TickState where
  player : Player
  gstate : GameState
  ghosts : List Ghost
deriving DecidableEq, Repr

/-- One iteration of `for ghost in self._ghosts` in `Game.update`: with the
collision radius `16 // 2 = 8` px (squared distance < 64) — a vulnerable
ghost is eaten (+200 score, spawn-delay lifecycle); a normal ghost costs a
life, after which lives ≤ 0 ends the round in defeat (`_set_game_over`)
and otherwise all positions reset to spawn (`_reset_positions`). -/
def ghost_collision_step (spawn : Vec) (ts : TickState) (i : ℕ) : TickState :=
  match ts.ghosts[i]? with
  | none => ts
  | some g =>
      if distSq ts.player.position g.position < 64 then
        if g.state = .vulnerable then
          { ts with player := Player.eat_pellet 200 ts.player,
                    ghosts := ts.ghosts.set i g.set_eaten_with_delay }
        else
          if (ts.player.lose_life).lives ≤ 0 then
            { ts with player := ts.player.lose_life, gstate := .GAME_OVER }
          else
            { ts with player := { ts.player.lose_life with position := spawn },
                      ghosts := ts.ghosts.map Ghost.reset_position }
      else ts

/-- The collision loop over all ghost indices (the list object iterated by
Python keeps its length through the loop: `set`/`map` preserve it). -/
def ghost_collision_loop_aux (spawn : Vec) : ℕ → ℕ → TickState → TickState
  | _, 0, ts => ts
  | i, n + 1, ts => ghost_collision_loop_aux spawn (i + 1) n (ghost_collision_step spawn ts i)

/-- The full ghost-collision pass of one tick. -/
def ghost_collision_loop (spawn : Vec) (ts : TickState) : TickState :=
  ghost_collision_loop_aux spawn 0 ts.ghosts.length ts

/-- Ghost `j` of the initial list collides with the (initial) player
position while in the normal state. -/
def HitNormal (gs0 : List Ghost) (pos0 : Vec) (j : ℕ) : Prop :=
  ∃ g, gs0[j]? = some g ∧ g.state = GhostState.normal ∧ distSq pos0 g.position < 64

/-- Loop invariant for the one-life scenario: player position unchanged,
ghosts not yet visited unchanged, and lives either still 1 or already 0
with the game over. -/
def OneLifeInv (gs0 : List Ghost) (pos0 : Vec) (i : ℕ) (ts : TickState) : Prop :=
  ts.player.position = pos0 ∧
  (∀ j, i ≤ j → ts.ghosts[j]? = gs0[j]?) ∧
  (ts.player.lives = 1 ∨ (ts.player.lives = 0 ∧ ts.gstate = GameState.GAME_OVER))

theorem lose_life_position (p : Player) : p.lose_life.position = p.position := rfl

theorem lose_life_nonneg (p : Player) : 0 ≤ p.lose_life.lives := by
  unfold Player.lose_life
  dsimp only
  split
  · exact le_refl 0
  · omega

theorem ghost_collision_step_inv (spawn : Vec) (gs0 : List Ghost) (pos0 : Vec)
    (i : ℕ) (ts : TickState) (h : OneLifeInv gs0 pos0 i ts) :
    OneLifeInv gs0 pos0 (i + 1) (ghost_collision_step spawn ts i) ∧
    (ts.player.lives = 0 ∧ ts.gstate = GameState.GAME_OVER →
      (ghost_collision_step spawn ts i).player.lives = 0 ∧
      (ghost_collision_step spawn ts i).gstate = GameState.GAME_OVER) ∧
    (HitNormal gs0 pos0 i →
      (ghost_collision_step spawn ts i).player.lives = 0 ∧
      (ghost_collision_step spawn ts i).gstate = GameState.GAME_OVER) := by
  obtain ⟨hpos, hsame, hlives⟩ := h
  unfold ghost_collision_step
  rcases hg : ts.ghosts[i]? with _ | g
  · refine ⟨⟨hpos, fun j hj => hsame j (by omega), hlives⟩, fun hd => hd, ?_⟩
    intro ⟨g', hg', _, _⟩
    rw [hsame i (le_refl i)] at hg
    rw [hg'] at hg
    cases hg
  · dsimp only
    by_cases hcol : distSq ts.player.position g.position < 64
    · rw [if_pos hcol]
      by_cases hvul : g.state = GhostState.vulnerable
      · rw [if_pos hvul]
        refine ⟨⟨hpos, ?_, hlives⟩, fun hd => hd, ?_⟩
        · intro j hj
          dsimp only
          rw [List.getElem?_set_ne (by omega)]
          exact hsame j (by omega)
        · intro ⟨g', hg', hnorm, _⟩
          rw [hsame i (le_refl i), hg'] at hg
          cases hg
          rw [hvul] at hnorm
          cases hnorm
      · rw [if_neg hvul]
        have hle : (ts.player.lose_life).lives ≤ 0 := by
          unfold Player.lose_life
          dsimp only
          rcases hlives with h1 | ⟨h1, _⟩ <;> rw [h1] <;> norm_num
        rw [if_pos hle]
        have hz : (ts.player.lose_life).lives = 0 := by
          unfold Player.lose_life at hle ⊢
          dsimp only at hle ⊢
          rcases hlives with h1 | ⟨h1, _⟩ <;> rw [h1] <;> norm_num
        exact ⟨⟨by dsimp only; rw [lose_life_position]; exact hpos,
          fun j hj => hsame j (by omega), Or.inr ⟨hz, rfl⟩⟩,
          fun _ => ⟨hz, rfl⟩, fun _ => ⟨hz, rfl⟩⟩
    · rw [if_neg hcol]
      refine ⟨⟨hpos, fun j hj => hsame j (by omega), hlives⟩, fun hd => hd, ?_⟩
      intro ⟨g', hg', hnorm, hclose⟩
      rw [hsame i (le_refl i), hg'] at hg
      cases hg
      rw [hpos] at hcol
      exact absurd hclose hcol

theorem ghost_collision_loop_aux_inv (spawn : Vec) (gs0 : List Ghost) (pos0 : Vec) :
    ∀ (n i : ℕ) (ts : TickState), OneLifeInv gs0 pos0 i ts →
      OneLifeInv gs0 pos0 (i + n) (ghost_collision_loop_aux spawn i n ts) ∧
      (ts.player.lives = 0 ∧ ts.gstate = GameState.GAME_OVER →
        (ghost_collision_loop_aux spawn i n ts).player.lives = 0 ∧
        (ghost_collision_loop_aux spawn i n ts).gstate = GameState.GAME_OVER) ∧
      ((∃ j, i ≤ j ∧ j < i + n ∧ HitNormal gs0 pos0 j) →
        (ghost_collision_loop_aux spawn i n ts).player.lives = 0 ∧
        (ghost_collision_loop_aux spawn i n ts).gstate = GameState.GAME_OVER) := by
  intro n
  induction n with
  | zero =>
      intro i ts h
      refine ⟨by simpa using h, fun hd => by simpa using hd, ?_⟩
      intro ⟨j, hij, hlt, _⟩
      omega
  | succ n ih =>
      intro i ts h
      obtain ⟨hstep, hd2, hhit⟩ := ghost_collision_step_inv spawn gs0 pos0 i ts h
      obtain ⟨ih1, ih2, ih3⟩ := ih (i + 1) (ghost_collision_step spawn ts i) hstep
      have heq : i + (n + 1) = i + 1 + n := by omega
      refine ⟨heq ▸ ih1, ?_, ?_⟩
      · intro hd
        exact ih2 (hd2 hd)
      · intro ⟨j, hij, hlt, hj⟩
        by_cases hji : j = i
        · subst hji
          exact ih2 (hhit hj)
        · exact ih3 ⟨j, by omega, by omega, hj⟩

theorem ghost_collision_step_lives_nonneg (spawn : Vec) (ts : TickState) (i : ℕ)
    (h : 0 ≤ ts.player.lives) : 0 ≤ (ghost_collision_step spawn ts i).player.lives := by
  unfold ghost_collision_step
  rcases ts.ghosts[i]? with _ | g
  · exact h
  · dsimp only
    split
    · split
      · exact h
      · split
        · exact lose_life_nonneg ts.player
        · exact lose_life_nonneg ts.player
    · exact h

theorem ghost_collision_loop_aux_lives_nonneg (spawn : Vec) :
    ∀ (n i : ℕ) (ts : TickState), 0 ≤ ts.player.lives →
      0 ≤ (ghost_collision_loop_aux spawn i n ts).player.lives := by
  intro n
  induction n with
  | zero => intro i ts h; exact h
  | succ n ih =>
      intro i ts h
      exact ih (i + 1) _ (ghost_collision_step_lives_nonneg spawn ts i h)

/-- C9: with exactly one life, any tick in which some ghost of the list is
normal and within the 8 px collision radius of the player ends with lives
= 0 and the game in the defeat state, with the player position untouched
(the spawn-reset branch is not taken); and the loop never drives lives
negative. -/
theorem one_life_collision_defeats (spawn : Vec) (ts : TickState) :
    (ts.player.lives = 1 →
      (∃ j, HitNormal ts.ghosts ts.player.position j) →
      (ghost_collision_loop spawn ts).player.lives = 0 ∧
      (ghost_collision_loop spawn ts).gstate = GameState.GAME_OVER ∧
      (ghost_collision_loop spawn ts).player.position = ts.player.position) ∧
    (0 ≤ ts.player.lives → 0 ≤ (ghost_collision_loop spawn ts).player.lives) := by
  constructor
  · intro hl ⟨j, hj⟩
    have hinv : OneLifeInv ts.ghosts ts.player.position 0 ts :=
      ⟨rfl, fun _ _ => rfl, Or.inl hl⟩
    obtain ⟨hinv', _, hhit⟩ :=
      ghost_collision_loop_aux_inv spawn ts.ghosts ts.player.position
        ts.ghosts.length 0 ts hinv
    have hjlen : j < ts.ghosts.length := by
      obtain ⟨g, hg, _, _⟩ := hj
      exact (List.getElem?_eq_some.mp hg).1
    have hfin := hhit ⟨j, by omega, by omega, hj⟩
    exact ⟨hfin.1, hfin.2, hinv'.1⟩
  · intro h
    exact ghost_collision_loop_aux_lives_nonneg spawn ts.ghosts.length 0 ts h

/-- Player with exactly one life at (40, 40). -/
def pOne : Player := ⟨⟨40, 40⟩, .NONE, .NONE, 2, 1, 0, false, 0, 0⟩

/-- A normal-state ghost 4 px from the player (squared distance 16 < 64). -/
def gNear : Ghost := Ghost.init 44 40 (3 / 2) .red 44 40

/-- One-life tick state with a single colliding normal ghost. -/
def tsOne : TickState := ⟨pOne, .PLAYING, [gNear]⟩

/-- C9 witness: the concrete one-life collision ends at lives 0, state
GAME_OVER, player position unchanged, lives nonnegative. -/
theorem one_life_collision_defeats_witness :
    ((ghost_collision_loop ⟨24, 24⟩ tsOne).player.lives = 0 ∧
     (ghost_collision_loop ⟨24, 24⟩ tsOne).gstate = GameState.GAME_OVER ∧
     (ghost_collision_loop ⟨24, 24⟩ tsOne).player.position = tsOne.player.position) ∧
    0 ≤ (ghost_collision_loop ⟨24, 24⟩ tsOne).player.lives := by
  have h := one_life_collision_defeats ⟨24, 24⟩ tsOne
  exact ⟨h.1 rfl ⟨0, gNear, rfl, rfl, by norm_num [distSq, gNear, Ghost.init, pOne, tsOne]⟩,
    h.2 (by norm_num [tsOne, pOne])⟩

/-- `Vector2D` of `src/src/utils.py` over the reals, for the one operation
whose exact result is irrational in general: `normalize` via `math.sqrt`
(the rest of the development uses the exact rational `Vec`). -/
structure Vector2D where
  x : ℝ
  y : ℝ

/-- `Vector2D.magnitude`: `math.sqrt(x*x + y*y)`. -/
noncomputable def Vector2D.magnitude (v : Vector2D) : ℝ :=
  Real.sqrt (v.x * v.x + v.y * v.y)

/-- `Vector2D.normalize`: the `mag == 0` guard returns `(0, 0)` instead of
dividing by zero; otherwise both components are divided by the magnitude. -/
noncomputable def Vector2D.normalize (v : Vector2D) : Vector2D :=
  if v.magnitude = 0 then ⟨0, 0⟩ else ⟨v.x / v.magnitude, v.y / v.magnitude⟩

/-- C10: `normalize` is total — the magnitude vanishes exactly on the zero
vector, where `normalize` returns (0, 0); every other vector is scaled by
the reciprocal of its magnitude. -/
theorem normalize_total (v : Vector2D) :
    (v.magnitude = 0 ↔ v = ⟨0, 0⟩) ∧
    (v = ⟨0, 0⟩ → v.normalize = ⟨0, 0⟩) ∧
    (v ≠ ⟨0, 0⟩ → v.normalize = ⟨v.x / v.magnitude, v.y / v.magnitude⟩) := by
  have hiff : v.magnitude = 0 ↔ v = ⟨0, 0⟩ := by
    unfold Vector2D.magnitude
    rw [Real.sqrt_eq_zero' ]
    constructor
    · intro hle
      rcases v with ⟨x, y⟩
      have hx : x = 0 := by nlinarith [sq_nonneg x, sq_nonneg y]
      have hy : y = 0 := by nlinarith [sq_nonneg x, sq_nonneg y]
      simp [hx, hy]
    · intro hv
      rw [hv]
      norm_num
  refine ⟨hiff, ?_, ?_⟩
  · intro hv
    unfold Vector2D.normalize
    rw [if_pos (hiff.mpr hv)]
  · intro hv
    unfold Vector2D.normalize
    rw [if_neg (fun hm => hv (hiff.mp hm))]

/-- C10 witness: the zero vector normalizes to (0, 0); the vector (3, 4)
(magnitude 5) normalizes to (3/5, 4/5). -/
theorem normalize_total_witness :
    Vector2D.normalize ⟨0, 0⟩ = ⟨0, 0⟩ ∧
    Vector2D.normalize ⟨3, 4⟩ = ⟨3 / 5, 4 / 5⟩ := by
  have hmag : (Vector2D.mk 3 4).magnitude = 5 := by
    unfold Vector2D.magnitude
    rw [show ((3 : ℝ) * 3 + 4 * 4 : ℝ) = 5 ^ 2 by norm_num]
    exact Real.sqrt_sq (by norm_num)
  constructor
  · exact (normalize_total ⟨0, 0⟩).2.1 rfl
  · have h := (normalize_total ⟨3, 4⟩).2.2 (by
      intro hv
      have := congrArg Vector2D.x hv
      norm_num at this)
    rw [h, hmag]
